import Mathlib

/-!
Shallow embedding of `src/client.rs` of the `rust-eventsource-client` repository:
the SSE client's reconnecting request state machine, client builder, backoff
computation, and request construction.  Components whose source files are not in
the repository snapshot (`config.rs`, `event_parser.rs`, `error.rs`) are modelled
from the specification, as marked on each such definition.

Rust `String`s are modelled as their UTF-8 byte sequences (`Bytes`); `Vec<u8>` is
likewise `Bytes`.  `Duration` values are modelled as natural numbers of
milliseconds.  Asynchronous awaits are resolved from an explicit environment
script (`ConnAttempt` list) supplying the outcome of each connection attempt;
panics (`unwrap` on a failing value) are modelled as a distinguished outcome.
-/

abbrev Bytes := List UInt8

/-- UTF-8 bytes of an ASCII/Unicode string literal (convenience for concrete inputs;
all literals used below are ASCII, so one byte per character). -/
def ascii (s : String) : Bytes := s.data.map (fun c => UInt8.ofNat c.toNat)

/-- State-machine form of UTF-8 validation: `k` continuation bytes are still
expected, the next of which must lie in `[lo, hi]` (later ones in
`[0x80, 0xBF]`); at `k = 0` the next byte is a lead byte.  The lead-byte
dispatch encodes the standard table (C2..DF: one continuation; E0/ED with
restricted first continuation and E1..EF: two; F0/F4 with restricted first
continuation and F1..F3: three), rejecting overlong encodings, surrogates and
code points above U+10FFFF. -/
def utf8ValidAux : Bytes → Nat × UInt8 × UInt8 → Bool
  | [], st => st.1 == 0
  | b :: rest, (0, _, _) =>
    if b ≤ 0x7F then utf8ValidAux rest (0, 0, 0)
    else if b < 0xC2 then false
    else if b ≤ 0xDF then utf8ValidAux rest (1, 0x80, 0xBF)
    else if b = 0xE0 then utf8ValidAux rest (2, 0xA0, 0xBF)
    else if b = 0xED then utf8ValidAux rest (2, 0x80, 0x9F)
    else if b ≤ 0xEF then utf8ValidAux rest (2, 0x80, 0xBF)
    else if b = 0xF0 then utf8ValidAux rest (3, 0x90, 0xBF)
    else if b ≤ 0xF3 then utf8ValidAux rest (3, 0x80, 0xBF)
    else if b = 0xF4 then utf8ValidAux rest (3, 0x80, 0x8F)
    else false
  | b :: rest, (Nat.succ k, lo, hi) =>
    if lo ≤ b && b ≤ hi then utf8ValidAux rest (k, 0x80, 0xBF)
    else false

/-- Embedding of Rust's standard UTF-8 validation (as run by
`String::from_utf8`): accepts exactly well-formed UTF-8. -/
def utf8Valid (bs : Bytes) : Bool := utf8ValidAux bs (0, 0, 0)

/-- Embedding of Rust's `String::from_utf8`: a Rust `String` is modelled as its
UTF-8 bytes, so a successful decode returns the bytes themselves. -/
def string_from_utf8 (b : Bytes) : Option Bytes :=
  if utf8Valid b then some b else none

/-- Embedding of the `http` crate's header-value validity check (used by
`HeaderValue::from_str` and `str::parse::<HeaderValue>`): every byte must be
horizontal tab or in `0x20 ..= 0xFF` excluding DEL (`0x7F`). -/
def headerValueValid (v : Bytes) : Bool :=
  v.all (fun b => b == 9 || (32 ≤ b && b != 127))

/-- Modelled from the spec: the underlying cause wrapped by an error (§3 calls it
an opaque boxed cause; we tag the concrete causes the embedding can produce). -/
inductive Cause where
  | invalidUri (s : Bytes)
  | invalidHeaderValue (v : Bytes)
  | statusError (code : Nat)
  | transport (tag : Nat)
  | utf8 (bytes : Bytes)
deriving DecidableEq

/-- Modelled from the spec: the error taxonomy of `error.rs` (absent from the
snapshot). §3: a tagged union of `HttpRequest` (request-construction /
connection-setup failures, including non-success HTTP status) and `HttpStream`
(in-flight transport failures), each wrapping a cause. -/
inductive Error where
  | HttpRequest (cause : Cause)
  | HttpStream (cause : Cause)
deriving DecidableEq

/-- Modelled from the spec: the parsed SSE event of `event_parser.rs` (absent from
the snapshot). §3: an event type (defaulting to "message"), an id held as raw
bytes, and a newline-joined data payload. -/
structure Event where
  event_type : Bytes
  data : Bytes
  id : Bytes
deriving DecidableEq

deriving instance DecidableEq for Except

/-- Modelled from the spec: the SSE stream parser state of `event_parser.rs`
(absent from the snapshot). §3/§4.4: a FIFO queue of completed events, a
partial-line buffer (plus a flag remembering a chunk-final CR so `\r\n` split
across chunks is one terminator), and the record being accumulated: its event
type, its `data:` line values in order, and its id. -/
structure EventParser where
  queue : List Event
  line_buf : Bytes
  last_cr : Bool
  cur_event_type : Bytes
  cur_data : List Bytes
  cur_id : Bytes
deriving DecidableEq

/-- Modelled from the spec (§4.4 Construct): empty buffer and empty queue. -/
def EventParser.new : EventParser := ⟨[], [], false, [], [], []⟩

/-- Modelled from the spec (§4.4 Retrieve next event): remove and return the
oldest queued event if present. -/
def EventParser.get_event (p : EventParser) : Option Event × EventParser :=
  match p.queue with
  | [] => (none, p)
  | e :: rest => (some e, { p with queue := rest })

/-- Join accumulated `data:` line values with `\n` (§4.4). -/
def joinLines : List Bytes → Bytes
  | [] => []
  | [l] => l
  | l :: rest => l ++ 10 :: joinLines rest

/-- Modelled from the spec (§4.4): on a blank line the accumulated record is
complete; it is queued unless it has no data and no id (the SSE dispatch rule),
and a fresh record begins.  The event type defaults to "message". -/
def EventParser.dispatchRecord (p : EventParser) : EventParser :=
  let p' := { p with cur_event_type := [], cur_data := [], cur_id := [] }
  if p.cur_data.isEmpty && p.cur_id.isEmpty then p'
  else
    let et := if p.cur_event_type.isEmpty then ascii "message" else p.cur_event_type
    { p' with queue := p.queue ++ [⟨et, joinLines p.cur_data, p.cur_id⟩] }

/-- Split a line at its first `:` (byte 58): `some (name, rawValue)`, or `none`
when the line has no colon. -/
def splitColon : Bytes → Option (Bytes × Bytes)
  | [] => none
  | b :: rest =>
    if b = 58 then some ([], rest)
    else (splitColon rest).map (fun fv => (b :: fv.1, fv.2))

/-- Strip the single optional space after the colon of an SSE field line. -/
def stripLeadingSpace (v : Bytes) : Bytes :=
  match v with
  | 32 :: rest => rest
  | _ => v

/-- Modelled from the spec (§4.4): handle one recognised field of the current
record.  `event:` sets the type, `data:` appends a data line, `id:` sets the id
after checking it decodes as UTF-8 (ingestion "fails with a decoding error if a
field that must be valid text (the id) cannot be decoded"); `retry:` and unknown
fields are ignored. -/
def EventParser.processField (p : EventParser) (f v : Bytes) : Except Error EventParser :=
  if f = ascii "event" then .ok { p with cur_event_type := v }
  else if f = ascii "data" then .ok { p with cur_data := p.cur_data ++ [v] }
  else if f = ascii "id" then
    if utf8Valid v then .ok { p with cur_id := v }
    else .error (.HttpStream (.utf8 v))
  else .ok p

/-- Modelled from the spec (§4.4): process one complete line: blank line
dispatches the record, a line starting with `:` is a comment and is ignored,
otherwise the line is a field (a colon-free line is a field name with empty
value, per the SSE algorithm). -/
def EventParser.processLine (p : EventParser) (line : Bytes) : Except Error EventParser :=
  if line = [] then .ok p.dispatchRecord
  else
    match splitColon line with
    | some ([], _) => .ok p
    | some (f, v0) => p.processField f (stripLeadingSpace v0)
    | none => p.processField line []

/-- Modelled from the spec (§4.4): consume one byte, splitting on `\n`, `\r\n`
or bare `\r` line terminators and retaining partial lines in the buffer. -/
def EventParser.processByte (p : EventParser) (b : UInt8) : Except Error EventParser :=
  if p.last_cr && b = 10 then .ok { p with last_cr := false }
  else if b = 13 then
    (p.processLine p.line_buf).map (fun p' => { p' with line_buf := [], last_cr := true })
  else if b = 10 then
    (p.processLine p.line_buf).map (fun p' => { p' with line_buf := [], last_cr := false })
  else .ok { p with line_buf := p.line_buf ++ [b], last_cr := false }

/-- Modelled from the spec (§4.4 Ingest bytes): feed one chunk byte by byte. -/
def EventParser.process_bytes (p : EventParser) (chunk : Bytes) : Except Error EventParser :=
  chunk.foldlM EventParser.processByte p

/-- Modelled from the spec: the `ReconnectOptions` of `config.rs` (absent from the
snapshot).  Field names follow their uses in `client.rs` (`retry_initial`,
`reconnect`, `delay`, `backoff_factor`, `delay_max`); durations are milliseconds. -/
structure ReconnectOptions where
  retry_initial : Bool
  reconnect : Bool
  delay : Nat
  backoff_factor : Nat
  delay_max : Nat
deriving DecidableEq

/-- Modelled from the spec: `ReconnectOptions::default()`.  §3 leaves the exact
numbers implementation-defined and suggests an initial delay on the order of one
second, a maximum on the order of one minute and a backoff factor of 2; the
boolean defaults are likewise implementation-defined and chosen here as
`retry_initial = false`, `reconnect = true` (§1: the library transparently
survives disconnections by reconnecting). -/
def ReconnectOptions.default : ReconnectOptions :=
  ⟨false, true, 1000, 2, 60000⟩

/-- Embedding of `RequestProps` (client.rs): the resolved immutable request
template.  Header names are stored lowercased, as `http::HeaderMap` normalises
them. -/
structure RequestProps where
  url : Bytes
  headers : List (Bytes × Bytes)
  reconnect_opts : ReconnectOptions
deriving DecidableEq

/-- An outgoing HTTP request as built by `send_request` (client.rs):
`Request::get(url)` with the template's headers. -/
structure Request where
  method : Bytes
  url : Bytes
  headers : List (Bytes × Bytes)
deriving DecidableEq

/-- Embedding of `http::HeaderMap::insert`: replace the value of an existing
header name, or append the pair. -/
def headerInsert : List (Bytes × Bytes) → Bytes → Bytes → List (Bytes × Bytes)
  | [], k, v => [(k, v)]
  | (k', v') :: rest, k, v =>
    if k' = k then (k, v) :: headerInsert rest k v
    else (k', v') :: headerInsert rest k v

/-- Look up a header value by name. -/
def headerGet (hs : List (Bytes × Bytes)) (k : Bytes) : Option Bytes :=
  (hs.find? (fun kv => kv.1 = k)).map (fun kv => kv.2)

/-- The (lowercased) `Last-Event-ID` header name inserted by `send_request`. -/
def lastEventIdKey : Bytes := ascii "last-event-id"

/-- Embedding of `ReconnectingRequest::send_request` (client.rs:228): a GET
request with the template's URL and headers, plus a `last-event-id` header when
the current resumption id is non-empty.  `none` models the panic of
`HeaderValue::from_str(&self.last_event_id).unwrap()` on an id that is not a
valid header value.  (With an already-parsed `Uri` the remaining builder steps
cannot fail, so the `Error::HttpRequest` path of the Rust function is
unreachable and has no counterpart here.) -/
def send_request (props : RequestProps) (last_event_id : Bytes) : Option Request :=
  if last_event_id.isEmpty then
    some ⟨ascii "GET", props.url, props.headers⟩
  else if headerValueValid last_event_id then
    some ⟨ascii "GET", props.url, headerInsert props.headers lastEventIdKey last_event_id⟩
  else
    none

/-- The environment's resolution of one body: the chunks delivered in order
(`poll_data` yielding `Some(Ok(bytes))`), then either a read error
(`Some(Err(tag))`, when `tailErr = some tag`) or a clean end (`None`). -/
structure BodySpec where
  chunks : List Bytes
  tailErr : Option Nat
deriving DecidableEq

/-- The environment's resolution of one connection attempt: a response with a
status code and a body, or a transport failure while awaiting the response. -/
inductive ConnAttempt where
  | success (status : Nat) (body : BodySpec)
  | failure (tag : Nat)
deriving DecidableEq

/-- Embedding of `StatusCode::is_success`: 2xx. -/
def statusIsSuccess (code : Nat) : Bool := 200 ≤ code && code ≤ 299

/-- Embedding of the `State` enum (client.rs:180).  The in-flight response
future and body are resolved from the environment script, so `Connecting` holds
only the retry flag and `Connected` holds the remaining body resolution.
`WaitingToReconnect` records the scheduled wait duration. -/
inductive State where
  | New
  | Connecting (retry : Bool)
  | Connected (body : BodySpec)
  | WaitingToReconnect (wait : Nat)
deriving DecidableEq

/-- Embedding of `ReconnectingRequest` (client.rs:168).  The `http` transport
handle is represented by the environment script and not stored.  The Rust field
`event_parser` is named `eventParser` here (naming restriction only). -/
structure ReconnectingRequest where
  props : RequestProps
  state : State
  next_reconnect_delay : Nat
  eventParser : EventParser
  last_event_id : Bytes
deriving DecidableEq

/-- Embedding of `ReconnectingRequest::new` (client.rs:210): state `New`, the
backoff duration initialised to the policy's `delay`, a fresh parser, and the
seeded resumption id. -/
def ReconnectingRequest.new (props : RequestProps) (last_event_id : Bytes) :
    ReconnectingRequest :=
  ⟨props, State.New, props.reconnect_opts.delay, EventParser.new, last_event_id⟩

/-- Embedding of `ReconnectingRequest::backoff` (client.rs:246): return the
current stored delay and replace it by
`min(delay_max, current * backoff_factor)`. -/
def ReconnectingRequest.backoff (m : ReconnectingRequest) : Nat × ReconnectingRequest :=
  (m.next_reconnect_delay,
   { m with next_reconnect_delay := (min m.props.reconnect_opts.delay_max (m.next_reconnect_delay * m.props.reconnect_opts.backoff_factor)) })

/-- Embedding of `ReconnectingRequest::reset_backoff` (client.rs:257): restore
the stored delay to the policy's initial `delay`. -/
def ReconnectingRequest.reset_backoff (m : ReconnectingRequest) : ReconnectingRequest :=
  { m with next_reconnect_delay := m.props.reconnect_opts.delay }

/-- Result of one iteration of the `poll_next` loop body (client.rs:291):
either the poll returns (an item, the end of the stream, a suspension, or a
panic), or the loop continues with an updated machine.  `cont` also reports the
request sent (if this iteration issued one) and the backoff wait scheduled (if
this iteration entered `WaitingToReconnect`), for use by the run drivers. -/
inductive StepResult where
  | item (r : Except Error Event) (m : ReconnectingRequest) (script : List ConnAttempt)
  | done
  | pending
  | panic
  | cont (m : ReconnectingRequest) (script : List ConnAttempt)
      (sentReq : Option Request) (wait : Option Nat)
deriving DecidableEq

/-- Embedding of one iteration of the loop in
`ReconnectingRequest::poll_next` (client.rs:288-357).  First the parser queue is
drained: a queued event is returned, updating the resumption id when its id is
non-empty (`String::from_utf8(..).unwrap()` panics on invalid UTF-8).  Otherwise
the current state acts: `New` sends the request and enters
`Connecting(retry_initial)`; `Connecting` resolves the response from the script
(non-success status: fatal `HttpRequest`; transport failure: backoff wait if the
retry flag is set, else fatal `HttpStream`; success: reset backoff, enter
`Connected`); `Connected` feeds the next chunk to the parser, and on clean end
or read error enters a backoff wait when `reconnect` is set, else ends the
stream (`None`) or fails fatally (`HttpStream`); `WaitingToReconnect` resends
the request and enters `Connecting(retry = true)`. -/
def ReconnectingRequest.step (m : ReconnectingRequest) (script : List ConnAttempt) :
    StepResult :=
  match m.eventParser.get_event with
  | (some ev, p') =>
    if ev.id.isEmpty then
      .item (.ok ev) { m with eventParser := p' } script
    else
      match string_from_utf8 ev.id with
      | some s => .item (.ok ev) { m with eventParser := p', last_event_id := s } script
      | none => .panic
  | (none, _) =>
    match m.state with
    | .New =>
      match send_request m.props m.last_event_id with
      | none => .panic
      | some req =>
        .cont { m with state := .Connecting m.props.reconnect_opts.retry_initial }
          script (some req) none
    | .Connecting retry =>
      match script with
      | [] => .pending
      | att :: srest =>
        match att with
        | .success status body =>
          if statusIsSuccess status then
            .cont { m.reset_backoff with state := .Connected body } srest none none
          else
            .item (.error (.HttpRequest (.statusError status))) m srest
        | .failure tag =>
          if retry then
            let d := m.backoff
            .cont { d.2 with state := .WaitingToReconnect d.1 } srest none (some d.1)
          else
            .item (.error (.HttpStream (.transport tag))) m srest
    | .Connected body =>
      match body.chunks with
      | c :: crest =>
        match m.eventParser.process_bytes c with
        | .ok p' =>
          .cont { m with eventParser := p', state := .Connected ⟨crest, body.tailErr⟩ }
            script none none
        | .error e =>
          .item (.error e) { m with state := .Connected ⟨crest, body.tailErr⟩ } script
      | [] =>
        if m.props.reconnect_opts.reconnect then
          let d := m.backoff
          .cont { d.2 with state := .WaitingToReconnect d.1 } script none (some d.1)
        else
          match body.tailErr with
          | some tag =>
            .item (.error (.HttpStream (.transport tag)))
              { m with state := .Connected ⟨[], none⟩ } script
          | none => .done
    | .WaitingToReconnect _ =>
      match send_request m.props m.last_event_id with
      | none => .panic
      | some req => .cont { m with state := .Connecting true } script (some req) none

/-- Outcome of one full `poll_next` call. -/
inductive PollOut where
  | item (r : Except Error Event)
  | done
  | pending
  | panic
  | outOfFuel
deriving DecidableEq

/-- A machine together with its environment script and the observation log of a
run: the requests sent, the backoff waits scheduled, and the states entered. -/
structure PollState where
  machine : ReconnectingRequest
  script : List ConnAttempt
  sent : List Request
  waits : List Nat
  visited : List State
deriving DecidableEq

/-- Run the `poll_next` loop until it returns (fuel bounds the number of
internal iterations), logging requests, waits and visited states. -/
def pollAux : Nat → PollState → PollOut × PollState
  | 0, ps => (.outOfFuel, ps)
  | Nat.succ fuel, ps =>
    match ps.machine.step ps.script with
    | .item r m' s' => (.item r, { ps with machine := m', script := s' })
    | .done => (.done, ps)
    | .pending => (.pending, ps)
    | .panic => (.panic, ps)
    | .cont m' s' req w =>
      pollAux fuel
        { machine := m', script := s', sent := ps.sent ++ req.toList,
          waits := ps.waits ++ w.toList, visited := ps.visited ++ [m'.state] }

/-- How a consumed run ended. -/
inductive Terminal where
  | errored (e : Error)
  | graceful
  | pendingEnv
  | panicked
  | outOfFuel
deriving DecidableEq

/-- The disciplined consumer of the stream (the `futures::Stream` contract, and
the documented "Do not use the stream after it returned an error!"): poll
repeatedly, collecting successful events, and stop at the first terminal
outcome (`pollFuel` bounds each poll's internal loop, the second argument the
number of polls). -/
def consumeAux (pollFuel : Nat) : Nat → PollState → List Event × Terminal × PollState
  | 0, ps => ([], .outOfFuel, ps)
  | Nat.succ n, ps =>
    match pollAux pollFuel ps with
    | (.item (.ok ev), ps') =>
      let r := consumeAux pollFuel n ps'
      (ev :: r.1, r.2.1, r.2.2)
    | (.item (.error e), ps') => ([], .errored e, ps')
    | (.done, ps') => ([], .graceful, ps')
    | (.pending, ps') => ([], .pendingEnv, ps')
    | (.panic, ps') => ([], .panicked, ps')
    | (.outOfFuel, ps') => ([], .outOfFuel, ps')

/-- The items a consumer of the sequence receives: the successful events, then
the terminal error if the run ended with one (a graceful end delivers no item). -/
def itemsDelivered (pollFuel n : Nat) (ps : PollState) : List (Except Error Event) :=
  let r := consumeAux pollFuel n ps
  r.1.map Except.ok ++
    (match r.2.1 with
     | .errored e => [Except.error e]
     | _ => [])

/-- Embedding of `ClientBuilder` (client.rs:38). -/
structure ClientBuilder where
  url : Bytes
  headers : List (Bytes × Bytes)
  reconnect_opts : ReconnectOptions
  last_event_id : Bytes
deriving DecidableEq

/-- Embedding of `Client` (client.rs:116); the `hyper::Client` transport handle
is represented by the environment script and not stored. -/
structure Client where
  request_props : RequestProps
  last_event_id : Bytes
deriving DecidableEq

/-- Models the third-party URI parser (`str::parse::<hyper::Uri>`) at the system
boundary: the library only depends on it accepting or rejecting a string.  The
abstraction accepts exactly non-empty byte strings free of control characters,
spaces and DEL; real invalid inputs such as the empty string or a lone space are
rejected. -/
def uriParse (s : Bytes) : Option Bytes :=
  if !s.isEmpty && s.all (fun b => 32 < b && b != 127) then some s else none

/-- The default headers seeded by `Client::for_url` (client.rs:131-133), with
names lowercased as `HeaderMap` stores them. -/
def defaultHeaders : List (Bytes × Bytes) :=
  [(ascii "accept", ascii "text/event-stream"),
   (ascii "cache-control", ascii "no-cache")]

/-- Embedding of `Client::for_url` (client.rs:128): parse the URL (failure is
wrapped as `Error::HttpRequest`), and seed a builder with the default headers,
the default reconnect options and an empty last event id. -/
def Client.for_url (url : Bytes) : Except Error ClientBuilder :=
  match uriParse url with
  | none => .error (.HttpRequest (.invalidUri url))
  | some u => .ok ⟨u, defaultHeaders, ReconnectOptions.default, []⟩

/-- Embedding of `ClientBuilder::header` (client.rs:47): parse the value as a
header value (failure: `Error::HttpRequest`) and insert it. -/
def ClientBuilder.header (b : ClientBuilder) (key value : Bytes) :
    Except Error ClientBuilder :=
  if headerValueValid value then
    .ok { b with headers := headerInsert b.headers key value }
  else
    .error (.HttpRequest (.invalidHeaderValue value))

/-- Embedding of `ClientBuilder::last_event_id` (client.rs:55): store the id
with no validation.  (Named `set_last_event_id` to avoid clashing with the field
accessor; the Rust method shares the field's name.) -/
def ClientBuilder.set_last_event_id (b : ClientBuilder) (id : Bytes) : ClientBuilder :=
  { b with last_event_id := id }

/-- Embedding of `ClientBuilder::reconnect` (client.rs:64). -/
def ClientBuilder.reconnect (b : ClientBuilder) (opts : ReconnectOptions) : ClientBuilder :=
  { b with reconnect_opts := opts }

/-- Embedding of `ClientBuilder::build_http` via `build_with_conn`
(client.rs:69-86): package the template and the seeded resumption id. -/
def ClientBuilder.build_http (b : ClientBuilder) : Client :=
  ⟨⟨b.url, b.headers, b.reconnect_opts⟩, b.last_event_id⟩

/-- Embedding of `Client::stream` (client.rs:154): a fresh
`ReconnectingRequest` from the client's template and resumption id. -/
def Client.stream (c : Client) : ReconnectingRequest :=
  ReconnectingRequest.new c.request_props c.last_event_id

/-- A policy with `initial_delay = 100`, `backoff_factor = 2`, `max_delay = 400`,
`retry_initial = true`, `reconnect = true` (the backoff scenario of the spec). -/
def optsBackoff : ReconnectOptions := ⟨true, true, 100, 2, 400⟩

/-- The same numeric policy with `reconnect = false`. -/
def optsNoRec : ReconnectOptions := ⟨true, false, 100, 2, 400⟩

/-- The same numeric policy with `retry_initial = false`, `reconnect = true`. -/
def optsNoRetryInitial : ReconnectOptions := ⟨false, true, 100, 2, 400⟩

/-- A concrete request template under `optsBackoff`. -/
def propsBackoff : RequestProps := ⟨ascii "http://x", [], optsBackoff⟩

/-- A concrete request template under `optsNoRec`. -/
def propsNoRec : RequestProps := ⟨ascii "http://x", [], optsNoRec⟩

/-- A concrete request template under `optsNoRetryInitial`. -/
def propsNoRetryInitial : RequestProps := ⟨ascii "http://x", [], optsNoRetryInitial⟩

/-- The request `send_request` builds from `propsBackoff` with no resumption id. -/
def reqPlain : Request := ⟨ascii "GET", ascii "http://x", []⟩

/-- Four consecutive connection failures against `propsBackoff`. -/
def run1 : PollState :=
  ⟨ReconnectingRequest.new propsBackoff [],
   [.failure 0, .failure 1, .failure 2, .failure 3], [], [], []⟩

/-- Two failures, then a success whose body ends at once, then another failure,
against `propsBackoff`. -/
def run2 : PollState :=
  ⟨ReconnectingRequest.new propsBackoff [],
   [.failure 0, .failure 1, .success 200 ⟨[], none⟩, .failure 3], [], [], []⟩

/-- One successful connection delivering one `data: hi` event and then ending
cleanly, against the non-reconnecting `propsNoRec`. -/
def run3 : PollState :=
  ⟨ReconnectingRequest.new propsNoRec [],
   [.success 200 ⟨[ascii "data: hi" ++ [10, 10]], none⟩], [], [], []⟩

/-- The event parsed from `data: hi`. -/
def evHi : Event := ⟨ascii "message", ascii "hi", []⟩

/-- An event whose id bytes `[255]` are not valid UTF-8. -/
def evBadId : Event := ⟨ascii "message", [], [255]⟩

/-- An event with the valid non-empty id `42`. -/
def evGoodId : Event := ⟨ascii "message", ascii "hi", ascii "42"⟩

/-- A machine whose parser queue holds `evBadId` (a state in which the next
advance dequeues an event with a non-UTF-8 id). -/
def mBadId : ReconnectingRequest :=
  ⟨propsBackoff, State.New, 100, ⟨[evBadId], [], false, [], [], []⟩, []⟩

/-- A machine whose parser queue holds `evGoodId`. -/
def mGoodId : ReconnectingRequest :=
  ⟨propsBackoff, State.New, 100, ⟨[evGoodId], [], false, [], [], []⟩, []⟩

/-- A machine in `Connected` whose body has ended cleanly, under `optsNoRec`. -/
def mConnEnd : ReconnectingRequest :=
  ⟨propsNoRec, State.Connected ⟨[], none⟩, 100, EventParser.new, []⟩

/-- A machine in `Connecting` (retry set) under `optsBackoff`. -/
def mConnecting : ReconnectingRequest :=
  ⟨propsBackoff, State.Connecting true, 100, EventParser.new, []⟩

/-- A machine in `WaitingToReconnect` under `optsBackoff`. -/
def mWaiting : ReconnectingRequest :=
  ⟨propsBackoff, State.WaitingToReconnect 100, 200, EventParser.new, []⟩

/-- A header just inserted is present with exactly the inserted value. -/
theorem headerGet_insert (hs : List (Bytes × Bytes)) (k v : Bytes) :
    headerGet (headerInsert hs k v) k = some v := by
  induction hs with
  | nil => simp [headerInsert, headerGet, List.find?]
  | cons kv rest ih =>
    by_cases h : kv.1 = k
    · simp [headerInsert, headerGet, List.find?, h]
    · obtain ⟨k', v'⟩ := kv
      simp only at h
      simp only [headerInsert, if_neg h]
      simpa [headerGet, List.find?, h] using ih

/-- If a full poll returns `done`, the machine and script it hands back are at a
point where the very next loop iteration is again `done`. -/
theorem pollAux_done (pf : Nat) (ps : PollState) :
    (pollAux pf ps).1 = PollOut.done →
    (pollAux pf ps).2.machine.step (pollAux pf ps).2.script = StepResult.done := by
  induction pf generalizing ps with
  | zero => intro h; simp [pollAux] at h
  | succ n ih =>
    intro h
    rw [pollAux] at h ⊢
    generalize hst : ps.machine.step ps.script = sr at h ⊢
    cases sr with
    | item r m' s' => dsimp only at h; simp at h
    | done => dsimp only; exact hst
    | pending => dsimp only at h; simp at h
    | panic => dsimp only at h; simp at h
    | cont m' s' req w => dsimp only at h ⊢; exact ih _ h

/-- If the disciplined consumer ends gracefully, a further poll of the machine
it hands back yields `done` (and hence no further item). -/
theorem consumeAux_graceful (pf n : Nat) (ps : PollState) (evs : List Event)
    (ps' : PollState) (h : consumeAux pf n ps = (evs, Terminal.graceful, ps')) (f : Nat) :
    (pollAux (f + 1) ps').1 = PollOut.done := by
  induction n generalizing ps evs with
  | zero => simp [consumeAux] at h
  | succ n ih =>
    rw [consumeAux] at h
    generalize hp : pollAux pf ps = pr at h
    obtain ⟨out, ps1⟩ := pr
    cases out with
    | item r =>
      cases r with
      | ok ev =>
        dsimp only at h
        have h2 : (consumeAux pf n ps1).2.1 = Terminal.graceful ∧
            (consumeAux pf n ps1).2.2 = ps' := by
          have := congrArg (fun t : List Event × Terminal × PollState => t.2) h
          simpa [Prod.ext_iff] using this
        exact ih ps1 (consumeAux pf n ps1).1
          (Prod.ext rfl (Prod.ext h2.1 h2.2))
      | error e =>
        dsimp only at h
        simp [Prod.ext_iff] at h
    | done =>
      dsimp only at h
      have h3 : ps1 = ps' := by
        have := congrArg (fun t : List Event × Terminal × PollState => t.2.2) h
        simpa using this
      subst h3
      have hd := pollAux_done pf ps (by rw [hp])
      rw [hp] at hd
      dsimp only at hd
      rw [pollAux, hd]
    | pending => dsimp only at h; simp [Prod.ext_iff] at h
    | panic => dsimp only at h; simp [Prod.ext_iff] at h
    | outOfFuel => dsimp only at h; simp [Prod.ext_iff] at h

/-- C1: for a stream in the Connected state whose next body-chunk await yields
a clean end or a read error, the step transitions to WaitingToReconnect with
the next backoff duration when `reconnect_on_disconnect` is true (uniformly for
clean end and read error); when it is false, a read error ends the sequence
with a fatal `HttpStream` error and a clean end ends the sequence gracefully
with no error (`done`). -/
theorem c1_connected_disconnect (m : ReconnectingRequest) (script : List ConnAttempt)
    (te : Option Nat) (hq : m.eventParser.queue = [])
    (hs : m.state = State.Connected ⟨[], te⟩) :
    (m.props.reconnect_opts.reconnect = true →
      m.step script =
        StepResult.cont { (m.backoff).2 with state := State.WaitingToReconnect (m.backoff).1 }
          script none (some (m.backoff).1) ∧
      (m.backoff).1 = m.next_reconnect_delay) ∧
    (m.props.reconnect_opts.reconnect = false →
      (∀ tag, te = some tag →
        m.step script =
          StepResult.item (.error (.HttpStream (.transport tag)))
            { m with state := State.Connected ⟨[], none⟩ } script) ∧
      (te = none → m.step script = StepResult.done)) := by
  obtain ⟨props, st, nrd, ep, lei⟩ := m
  obtain ⟨q, lb, lc, cet, cd, cid⟩ := ep
  dsimp only at hq hs
  subst hq
  subst hs
  refine ⟨fun hrec => ⟨?_, rfl⟩, fun hrec => ⟨fun tag hte => ?_, fun hte => ?_⟩⟩
  · dsimp only at hrec
    simp [ReconnectingRequest.step, EventParser.get_event, hrec, ReconnectingRequest.backoff]
  · dsimp only at hrec
    subst hte
    simp [ReconnectingRequest.step, EventParser.get_event, hrec]
  · dsimp only at hrec
    subst hte
    simp [ReconnectingRequest.step, EventParser.get_event, hrec]

/-- Witness for C1 at the concrete machine `mConnEnd` (`reconnect = false`,
body cleanly ended): the stream ends gracefully. -/
theorem c1_witness : mConnEnd.step [] = StepResult.done :=
  ((c1_connected_disconnect mConnEnd [] none (by decide) (by decide)).2 (by decide)).2 rfl

/-- C2: the backoff state is one stored duration initialised to the policy's
initial delay; `backoff` returns the current stored duration (the wait length
used whenever a wait is scheduled) and replaces the store by
`min(max_delay, current * backoff_factor)`; a successful connection (entering
Connected) resets the store to the initial delay.  Concretely, with
`initial_delay = 100`, `max_delay = 400`, `backoff_factor = 2`, four
consecutive failures schedule waits 100, 200, 400, 400, and a success after the
second failure resets the next wait to 100. -/
theorem c2_backoff_schedule :
    (∀ (props : RequestProps) (lei : Bytes),
      (ReconnectingRequest.new props lei).next_reconnect_delay = props.reconnect_opts.delay) ∧
    (∀ m : ReconnectingRequest,
      (m.backoff).1 = m.next_reconnect_delay ∧
      (m.backoff).2.next_reconnect_delay =
        min m.props.reconnect_opts.delay_max
          (m.next_reconnect_delay * m.props.reconnect_opts.backoff_factor)) ∧
    (∀ (m : ReconnectingRequest) (retry : Bool) (status : Nat) (body : BodySpec)
        (srest : List ConnAttempt),
      m.eventParser.queue = [] → m.state = State.Connecting retry →
      statusIsSuccess status = true →
      m.step (ConnAttempt.success status body :: srest) =
        StepResult.cont { m.reset_backoff with state := State.Connected body } srest none none ∧
      (m.reset_backoff).next_reconnect_delay = m.props.reconnect_opts.delay) ∧
    ((pollAux 12 run1).2.waits = [100, 200, 400, 400] ∧ (pollAux 12 run1).1 = PollOut.pending) ∧
    (pollAux 14 run2).2.waits = [100, 200, 100, 200] := by
  refine ⟨fun props lei => rfl, fun m => ⟨rfl, rfl⟩, ?_, by decide, by decide⟩
  intro m retry status body srest hq hs hst
  obtain ⟨props, st, nrd, ep, lei⟩ := m
  obtain ⟨q, lb, lc, cet, cd, cid⟩ := ep
  dsimp only at hq hs
  subst hq
  subst hs
  refine ⟨?_, rfl⟩
  simp [ReconnectingRequest.step, EventParser.get_event, hst, ReconnectingRequest.reset_backoff]

/-- Witness for C2 at the concrete machine `mConnecting` receiving a 200
response: the transition resets the stored delay to the policy's initial 100. -/
theorem c2_witness :
    mConnecting.step [ConnAttempt.success 200 ⟨[], none⟩] =
      StepResult.cont { mConnecting.reset_backoff with state := State.Connected ⟨[], none⟩ }
        [] none none ∧
    (mConnecting.reset_backoff).next_reconnect_delay = 100 := by
  have h := c2_backoff_schedule.2.2.1 mConnecting true 200 ⟨[], none⟩ []
    (by decide) (by decide) (by decide)
  exact ⟨h.1, by decide⟩

/-- C3: in the Connecting state, a response with a non-success HTTP status ends
the sequence with a fatal `HttpRequest` error, whatever the retry flag, the
policy, and the machine's history (status errors are never converted into a
backoff-and-retry cycle). -/
theorem c3_status_error_fatal (m : ReconnectingRequest) (retry : Bool) (status : Nat)
    (body : BodySpec) (srest : List ConnAttempt)
    (hq : m.eventParser.queue = []) (hs : m.state = State.Connecting retry)
    (hns : statusIsSuccess status = false) :
    m.step (ConnAttempt.success status body :: srest) =
      StepResult.item (.error (.HttpRequest (.statusError status))) m srest := by
  obtain ⟨props, st, nrd, ep, lei⟩ := m
  obtain ⟨q, lb, lc, cet, cd, cid⟩ := ep
  dsimp only at hq hs
  subst hq
  subst hs
  simp [ReconnectingRequest.step, EventParser.get_event, hns]

/-- Witness for C3: a 404 response in `Connecting` (retry flag set, policy
fully retry-friendly) is a fatal `HttpRequest` error. -/
theorem c3_witness :
    mConnecting.step [ConnAttempt.success 404 ⟨[], none⟩] =
      StepResult.item (.error (.HttpRequest (.statusError 404))) mConnecting [] :=
  c3_status_error_fatal mConnecting true 404 ⟨[], none⟩ [] (by decide) (by decide) (by decide)

/-- C4 counterexample: at a machine whose parser queue's head event has the
non-empty, non-UTF-8 id `[255]`, the advance panics
(`String::from_utf8(event.id.clone()).unwrap()`), so the implementation does
not "treat the id defensively rather than failing", and the event is not
returned to the caller. -/
theorem c4_cex_invalid_id_panics :
    mBadId.step [] = StepResult.panic ∧ utf8Valid [255] = false ∧
    mBadId.eventParser.queue = [evBadId] ∧ evBadId.id = [255] := by decide

/-- C4 as amended: when the advance dequeues a parsed event, an empty id leaves
the resumption id unchanged and the event is returned; a non-empty id that is
valid UTF-8 is stored as the new resumption id and the event is returned; a
non-empty id that is not valid UTF-8 makes the advance panic (the `unwrap` on
the UTF-8 decode) instead of returning the event or surfacing an error. -/
theorem c4_id_update (m : ReconnectingRequest) (ev : Event) (rest : List Event)
    (script : List ConnAttempt) (hq : m.eventParser.queue = ev :: rest) :
    (ev.id = [] →
      m.step script =
        StepResult.item (.ok ev)
          { m with eventParser := { m.eventParser with queue := rest } } script) ∧
    (ev.id ≠ [] → utf8Valid ev.id = true →
      m.step script =
        StepResult.item (.ok ev)
          { m with eventParser := { m.eventParser with queue := rest },
                   last_event_id := ev.id } script) ∧
    (ev.id ≠ [] → utf8Valid ev.id = false → m.step script = StepResult.panic) := by
  obtain ⟨props, st, nrd, ep, lei⟩ := m
  obtain ⟨q, lb, lc, cet, cd, cid⟩ := ep
  dsimp only at hq
  subst hq
  refine ⟨fun hid => ?_, fun hid hv => ?_, fun hid hv => ?_⟩
  · simp [ReconnectingRequest.step, EventParser.get_event, hid]
  · simp [ReconnectingRequest.step, EventParser.get_event, List.isEmpty_eq_true, hid,
      string_from_utf8, hv]
  · simp [ReconnectingRequest.step, EventParser.get_event, List.isEmpty_eq_true, hid,
      string_from_utf8, hv]

/-- Witness for C4 (amended) at `mGoodId`: the event with valid id `42` is
returned and `42` becomes the stored resumption id. -/
theorem c4_witness :
    mGoodId.step [] =
      StepResult.item (.ok evGoodId)
        { mGoodId with eventParser := { mGoodId.eventParser with queue := [] },
                       last_event_id := ascii "42" } [] :=
  (c4_id_update mGoodId evGoodId [] [] (by decide)).2.1 (by decide) (by decide)

/-- C5: every (re)connect attempt's outgoing request is a GET with the
template's URL and headers, plus a `last-event-id` header equal to the current
resumption id exactly when that id is non-empty; a seeded builder id reaches the
stream unchanged; and after an event with a non-empty (valid) id is emitted,
the machine's resumption id — hence the next attempt's `last-event-id`
header — equals that id. -/
theorem c5_last_event_id_header (props : RequestProps) (lei : Bytes)
    (m : ReconnectingRequest) (ev : Event) (rest : List Event) (script : List ConnAttempt)
    (hq : m.eventParser.queue = ev :: rest) (hid : ev.id ≠ [])
    (hv : utf8Valid ev.id = true) :
    (lei = [] → send_request props lei = some ⟨ascii "GET", props.url, props.headers⟩) ∧
    (lei ≠ [] → headerValueValid lei = true →
      send_request props lei =
        some ⟨ascii "GET", props.url, headerInsert props.headers lastEventIdKey lei⟩) ∧
    (∀ (hs : List (Bytes × Bytes)) (k v : Bytes),
      headerGet (headerInsert hs k v) k = some v) ∧
    (∀ (b : ClientBuilder) (idb : Bytes),
      ((b.set_last_event_id idb).build_http.stream).last_event_id = idb) ∧
    m.step script =
      StepResult.item (.ok ev)
        { m with eventParser := { m.eventParser with queue := rest },
                 last_event_id := ev.id } script := by
  refine ⟨fun h => ?_, fun h hval => ?_, headerGet_insert, fun b idb => rfl,
    (c4_id_update m ev rest script hq).2.1 hid hv⟩
  · simp [send_request, h]
  · simp [send_request, List.isEmpty_eq_true, h, hval]

/-- Witness for C5: with resumption id `42` the request to `http://x` carries
`last-event-id: 42`, and emitting `evGoodId` from `mGoodId` stores id `42`. -/
theorem c5_witness :
    send_request propsBackoff (ascii "42") =
      some ⟨ascii "GET", propsBackoff.url,
        headerInsert propsBackoff.headers lastEventIdKey (ascii "42")⟩ ∧
    headerGet (headerInsert propsBackoff.headers lastEventIdKey (ascii "42")) lastEventIdKey =
      some (ascii "42") := by
  have h := c5_last_event_id_header propsBackoff (ascii "42") mGoodId evGoodId [] []
    (by decide) (by decide) (by decide)
  exact ⟨h.2.1 (by decide) (by decide), h.2.2.1 propsBackoff.headers lastEventIdKey (ascii "42")⟩

/-- C6: the transition out of WaitingToReconnect builds and sends the same
request `send_request` builds from New (same template and resumption id) and
enters Connecting with the retry flag forced to `true`; the transition out of
New is identical except that its retry flag is the policy's `retry_initial`,
which therefore only governs the very first connection attempt. -/
theorem c6_reconnect_like_new (m : ReconnectingRequest) (script : List ConnAttempt)
    (w : Nat) (req : Request) (hq : m.eventParser.queue = [])
    (hsr : send_request m.props m.last_event_id = some req) :
    (m.state = State.WaitingToReconnect w →
      m.step script = StepResult.cont { m with state := State.Connecting true }
        script (some req) none) ∧
    (m.state = State.New →
      m.step script =
        StepResult.cont { m with state := State.Connecting m.props.reconnect_opts.retry_initial }
          script (some req) none) := by
  obtain ⟨props, st, nrd, ep, lei⟩ := m
  obtain ⟨q, lb, lc, cet, cd, cid⟩ := ep
  dsimp only at hq hsr ⊢
  subst hq
  refine ⟨fun hs => ?_, fun hs => ?_⟩
  · subst hs
    simp [ReconnectingRequest.step, EventParser.get_event, hsr]
  · subst hs
    simp [ReconnectingRequest.step, EventParser.get_event, hsr]

/-- Witness for C6 at `mWaiting`: waking from the backoff wait sends the plain
request and enters `Connecting` with retry forced on, even though here
`retry_initial` would be irrelevant. -/
theorem c6_witness :
    mWaiting.step [] =
      StepResult.cont { mWaiting with state := State.Connecting true } [] (some reqPlain) none :=
  (c6_reconnect_like_new mWaiting [] 100 reqPlain (by decide) (by decide)).1 rfl

/-- A state is the backoff wait state. -/
def isWaitingState : State → Bool
  | State.WaitingToReconnect _ => true
  | _ => false

/-- C7: with `retry_initial_failure = false`, a stream whose first connection
attempt fails with a transport error ends with a fatal `HttpStream` error,
schedules no backoff wait, and never enters the WaitingToReconnect state. -/
theorem c7_no_retry_initial_fatal (props : RequestProps) (lei : Bytes) (tag f : Nat)
    (srest : List ConnAttempt) (req : Request)
    (hri : props.reconnect_opts.retry_initial = false)
    (hsr : send_request props lei = some req) :
    (pollAux (f + 2) ⟨ReconnectingRequest.new props lei,
        ConnAttempt.failure tag :: srest, [], [], []⟩).1 =
      PollOut.item (.error (.HttpStream (.transport tag))) ∧
    (pollAux (f + 2) ⟨ReconnectingRequest.new props lei,
        ConnAttempt.failure tag :: srest, [], [], []⟩).2.waits = [] ∧
    (pollAux (f + 2) ⟨ReconnectingRequest.new props lei,
        ConnAttempt.failure tag :: srest, [], [], []⟩).2.visited.all
      (fun s => !isWaitingState s) = true := by
  have h1 : (ReconnectingRequest.new props lei).step (ConnAttempt.failure tag :: srest) =
      StepResult.cont { ReconnectingRequest.new props lei with
          state := State.Connecting props.reconnect_opts.retry_initial }
        (ConnAttempt.failure tag :: srest) (some req) none := by
    simp [ReconnectingRequest.step, ReconnectingRequest.new, EventParser.new,
      EventParser.get_event, hsr]
  have h2 : ({ ReconnectingRequest.new props lei with
      state := State.Connecting props.reconnect_opts.retry_initial } :
        ReconnectingRequest).step (ConnAttempt.failure tag :: srest) =
      StepResult.item (.error (.HttpStream (.transport tag)))
        { ReconnectingRequest.new props lei with
          state := State.Connecting props.reconnect_opts.retry_initial } srest := by
    simp [ReconnectingRequest.step, ReconnectingRequest.new, EventParser.new,
      EventParser.get_event, hri]
  rw [show f + 2 = (f + 1) + 1 from rfl, pollAux]
  rw [h1]
  dsimp only
  rw [pollAux]
  rw [h2]
  simp [hri, isWaitingState]

/-- Witness for C7: a concrete first-attempt transport failure under
`propsNoRetryInitial` is fatal with no backoff wait. -/
theorem c7_witness :
    (pollAux 2 ⟨ReconnectingRequest.new propsNoRetryInitial [],
        [ConnAttempt.failure 7], [], [], []⟩).1 =
      PollOut.item (.error (.HttpStream (.transport 7))) ∧
    (pollAux 2 ⟨ReconnectingRequest.new propsNoRetryInitial [],
        [ConnAttempt.failure 7], [], [], []⟩).2.waits = [] ∧
    (pollAux 2 ⟨ReconnectingRequest.new propsNoRetryInitial [],
        [ConnAttempt.failure 7], [], [], []⟩).2.visited.all
      (fun s => !isWaitingState s) = true :=
  c7_no_retry_initial_fatal propsNoRetryInitial [] 7 0 [] reqPlain (by decide) (by decide)

/-- C8: the items a consumer of the sequence receives are some successful
events followed by at most one terminal outcome — either a single error item or
a graceful end, never both; and after a graceful end a further poll again
yields `done`, so no further item is produced. -/
theorem c8_delivery_shape (pf n f : Nat) (ps ps' : PollState) (evs : List Event)
    (t : Terminal) (h : consumeAux pf n ps = (evs, t, ps')) :
    (∃ evs2 : List Event, itemsDelivered pf n ps = evs2.map Except.ok ∨
      ∃ e : Error, itemsDelivered pf n ps = evs2.map Except.ok ++ [Except.error e]) ∧
    (t = Terminal.graceful →
      itemsDelivered pf n ps = evs.map Except.ok ∧
      (pollAux (f + 1) ps').1 = PollOut.done) := by
  constructor
  · refine ⟨evs, ?_⟩
    unfold itemsDelivered
    rw [h]
    cases t with
    | errored e => exact Or.inr ⟨e, rfl⟩
    | graceful => exact Or.inl (by simp)
    | pendingEnv => exact Or.inl (by simp)
    | panicked => exact Or.inl (by simp)
    | outOfFuel => exact Or.inl (by simp)
  · intro hg
    subst hg
    refine ⟨?_, consumeAux_graceful pf n ps evs ps' h f⟩
    unfold itemsDelivered
    rw [h]
    simp

/-- Witness for C8 on the concrete single-connection run `run3`
(`reconnect = false`, one event, clean end): the delivered items are exactly
`[ok evHi]` and a further poll after the graceful end yields `done`. -/
theorem c8_witness :
    (∃ evs2 : List Event, itemsDelivered 6 3 run3 = evs2.map Except.ok ∨
      ∃ e : Error, itemsDelivered 6 3 run3 = evs2.map Except.ok ++ [Except.error e]) ∧
    (Terminal.graceful = Terminal.graceful →
      itemsDelivered 6 3 run3 = [evHi].map Except.ok ∧
      (pollAux (0 + 1) (consumeAux 6 3 run3).2.2).1 = PollOut.done) :=
  c8_delivery_shape 6 3 0 run3 (consumeAux 6 3 run3).2.2 [evHi] Terminal.graceful (by decide)

/-- C9 counterexample: on a string that cannot be parsed as a URL (here the
empty string, which the URI parser rejects), `for_url` fails with an
`HttpRequest` error wrapping the parse failure — not with a distinct
"InvalidInput" error, which does not exist in the error taxonomy (its two kinds
are `HttpRequest` and `HttpStream`). -/
theorem c9_cex_error_kind :
    Client.for_url [] = Except.error (Error.HttpRequest (Cause.invalidUri [])) ∧
    uriParse [] = none := by decide

/-- C9 as amended: `for_url` seeds a Builder with exactly the default headers
`Accept: text/event-stream` and `Cache-Control: no-cache`, the default
reconnect policy and an empty resumption id; on a string the URI parser
rejects, it fails with an `HttpRequest` error wrapping the parse failure. -/
theorem c9_for_url (url : Bytes) :
    (uriParse url = none →
      Client.for_url url = Except.error (Error.HttpRequest (Cause.invalidUri url))) ∧
    (∀ u, uriParse url = some u →
      Client.for_url url = Except.ok ⟨u, defaultHeaders, ReconnectOptions.default, []⟩) := by
  constructor
  · intro h
    simp [Client.for_url, h]
  · intro u h
    simp [Client.for_url, h]

/-- Witness for C9 at the concrete URL `http://x`: the seeded builder carries
exactly the default headers, the default policy and an empty id. -/
theorem c9_witness :
    Client.for_url (ascii "http://x") =
      Except.ok ⟨ascii "http://x", defaultHeaders, ReconnectOptions.default, []⟩ :=
  (c9_for_url (ascii "http://x")).2 (ascii "http://x") (by decide)

/-- C10: a resumption id that is not a valid header value (here `"\n"`), seeded
through the builder's unvalidated `last_event_id` setter, makes the first
advance of the resulting stream panic while constructing the `last-event-id`
header in `send_request` (the `HeaderValue::from_str(..).unwrap()`), rather
than surfacing an `HttpRequest` error item. -/
theorem c10_invalid_seed_panics :
    (Client.for_url (ascii "http://x")).toOption.map
        (fun b => (b.set_last_event_id [10]).build_http.stream.step []) =
      some StepResult.panic ∧
    headerValueValid [10] = false := by decide
